import Mathlib

/-!
Shallow embedding of the idempotent-operation / token-ledger / session-rotation
subsystem of the server (FastAPI + SQLAlchemy + PostgreSQL source).

Database tables are modelled as lists of records; the SQL conditional
`UPDATE ... WHERE ...` primitives become pure functions that rewrite the list
and return what the corresponding `RETURNING` clause produced.  The service
layer's control flow (early returns, exception paths) is modelled with
`Except` results paired with the post-state.
-/

/-- Row status enum (`app/models/enums.py`, class `RowStatus`). -/
inductive RowStatus where
  | pending
  | applied
  | failed
deriving DecidableEq, Repr

/-- A row of the `users` table, restricted to the fields used by the token
ledger (`app/models/orm_models/users.py`): primary key `id`, integer `tokens`
balance, and the `is_active` soft-delete flag. -/
structure UserRec where
  id : Nat
  tokens : Int
  isActive : Bool
deriving DecidableEq, Repr

namespace UserRepository

/-- `UserRepository.get_tokens_by_id`:
`SELECT tokens FROM users WHERE id = user_id` with `scalar_one()`; `none`
models the no-row case in which `scalar_one()` raises. -/
def get_tokens_by_id (users : List UserRec) (uid : Nat) : Option Int :=
  (users.find? (fun v => v.id == uid)).map UserRec.tokens

/-- `UserRepository.update_tokens`: conditional debit
`UPDATE users SET tokens = tokens - cost WHERE id = user_id AND tokens >= cost
RETURNING tokens`.  Returns `some remaining` iff a row matched (the service
raises `NotEnoughTokensException` on no match).  The primary key guarantees at
most one matching row, so acting on the first match is faithful. -/
def update_tokens : List UserRec → Nat → Int → Option Int × List UserRec
  | [], _, _ => (none, [])
  | v :: rest, uid, cost =>
    if v.id = uid ∧ cost ≤ v.tokens then
      (some (v.tokens - cost), { v with tokens := v.tokens - cost } :: rest)
    else
      let r := update_tokens rest uid cost
      (r.1, v :: r.2)

/-- `UserRepository.add_tokens`: conditional credit
`UPDATE users SET tokens = tokens + amount
WHERE id = user_id AND tokens = 0 AND is_active RETURNING tokens`.
Returns `some newBalance` iff a row matched, else `none` (not applied). -/
def add_tokens : List UserRec → Nat → Int → Option Int × List UserRec
  | [], _, _ => (none, [])
  | v :: rest, uid, amount =>
    if v.id = uid ∧ v.tokens = 0 ∧ v.isActive = true then
      (some (v.tokens + amount), { v with tokens := v.tokens + amount } :: rest)
    else
      let r := add_tokens rest uid amount
      (r.1, v :: r.2)

end UserRepository

/-- A row of the `token_credits` purchase ledger
(`app/models/orm_models/token_credits.py`): `(user_id, key)` unique,
`status`, and the `open_balance` snapshot set only at `applied`. -/
structure CreditRow where
  userId : Nat
  key : String
  status : RowStatus
  openBalance : Option Int
deriving DecidableEq, Repr

namespace TokenCreditRepository

/-- `TokenCreditRepository.try_insert_pending`:
`INSERT ... VALUES (user_id, key, 'pending') ON CONFLICT (user_id, key) DO
NOTHING`; returns `true` iff the row was inserted now. -/
def try_insert_pending (credits : List CreditRow) (uid : Nat) (key : String) :
    Bool × List CreditRow :=
  if credits.any (fun c => c.userId == uid && c.key == key) then
    (false, credits)
  else
    (true, credits ++ [{ userId := uid, key := key, status := RowStatus.pending,
                         openBalance := none }])

/-- `TokenCreditRepository.get_by_key_status_open_balance`:
`SELECT status, open_balance WHERE user_id = ... AND key = ...`, first row. -/
def get_by_key_status_open_balance (credits : List CreditRow) (uid : Nat)
    (key : String) : Option (RowStatus × Option Int) :=
  (credits.find? (fun c => c.userId == uid && c.key == key)).map
    (fun c => (c.status, c.openBalance))

/-- `TokenCreditRepository.mark_applied`:
`UPDATE token_credits SET status='applied', open_balance=... WHERE user_id AND key`. -/
def mark_applied (credits : List CreditRow) (uid : Nat) (key : String)
    (openBalance : Int) : List CreditRow :=
  credits.map (fun c =>
    if c.userId == uid && c.key == key then
      { c with status := RowStatus.applied, openBalance := some openBalance }
    else c)

/-- `TokenCreditRepository.mark_failed`:
`UPDATE token_credits SET status='failed' WHERE user_id AND key`. -/
def mark_failed (credits : List CreditRow) (uid : Nat) (key : String) :
    List CreditRow :=
  credits.map (fun c =>
    if c.userId == uid && c.key == key then { c with status := RowStatus.failed }
    else c)

end TokenCreditRepository

/-- Error taxonomy of `TokenCreditService.buy_tokens`. -/
inductive BuyError where
  | balanceMustBeZero
  | purchaseInProgress
deriving DecidableEq, Repr

/-- Combined state touched by the purchase flow: the `users` table and the
`token_credits` ledger. -/
structure LedgerState where
  users : List UserRec
  credits : List CreditRow
deriving DecidableEq, Repr

namespace TokenCreditService

/-- `TokenCreditService.buy_tokens` (`app/services/token_credit_service.py`):
1. `try_insert_pending(user_id, key)`;
2. if inserted: `add_tokens` (credit-if-zero); on `None` mark the ledger row
   `failed` and raise `BalanceMustBeZeroException`, else mark it `applied`
   with the snapshot balance and return it;
3. if duplicate: look the row up — `applied` with a recorded balance replays
   that balance, `failed` replays `BalanceMustBeZeroException`, anything else
   raises `PurchaseInProgressException`. -/
def buy_tokens (st : LedgerState) (uid : Nat) (amount : Int) (key : String) :
    Except BuyError Int × LedgerState :=
  let ins := TokenCreditRepository.try_insert_pending st.credits uid key
  if ins.1 then
    let credit := UserRepository.add_tokens st.users uid amount
    match credit.1 with
    | none =>
        (Except.error BuyError.balanceMustBeZero,
         { users := credit.2,
           credits := TokenCreditRepository.mark_failed ins.2 uid key })
    | some newBalance =>
        (Except.ok newBalance,
         { users := credit.2,
           credits := TokenCreditRepository.mark_applied ins.2 uid key newBalance })
  else
    match TokenCreditRepository.get_by_key_status_open_balance st.credits uid key with
    | some (RowStatus.applied, some b) => (Except.ok b, st)
    | some (RowStatus.applied, none) => (Except.error BuyError.purchaseInProgress, st)
    | some (RowStatus.failed, _) => (Except.error BuyError.balanceMustBeZero, st)
    | some (RowStatus.pending, _) => (Except.error BuyError.purchaseInProgress, st)
    | none => (Except.error BuyError.purchaseInProgress, st)

end TokenCreditService

/-- A row of the `auth_sessions` table
(`app/models/orm_models/auth_sessions.py`), restricted to the fields used by
rotation.  Timestamps are integers; `userActive` folds in the
`row.user and row.user.is_active` check of the service (the joined `users`
row). -/
structure AuthSession where
  sessionId : Nat
  refreshTokenHash : String
  lastTokenHash : Option String
  revoked : Bool
  userActive : Bool
  expiresAt : Int
  absoluteExpiresAt : Int
deriving DecidableEq, Repr

namespace AuthRepository

/-- `AuthRepository.get_refresh_token`:
`SELECT * FROM auth_sessions WHERE refresh_token_hash = token_hash ... FOR
UPDATE`, first row.  Note: the lookup matches the *current* hash column only;
`last_token_hash` is not part of the predicate. -/
def get_refresh_token (sessions : List AuthSession) (tokenHash : String) :
    Option AuthSession :=
  sessions.find? (fun s => s.refreshTokenHash == tokenHash)

/-- `AuthRepository.revoke_by_session`:
`UPDATE auth_sessions SET revoked = true WHERE session_id = sid`. -/
def revoke_by_session (sessions : List AuthSession) (sid : Nat) :
    List AuthSession :=
  sessions.map (fun s =>
    if s.sessionId == sid then { s with revoked := true } else s)

/-- `AuthRepository.rotate_refresh_token`:
`UPDATE auth_sessions SET refresh_token_hash = new, last_token_hash = last,
expires_at = newExpiry WHERE session_id = sid`. -/
def rotate_refresh_token (sessions : List AuthSession) (sid : Nat)
    (newHash lastHash : String) (newExpiry : Int) : List AuthSession :=
  sessions.map (fun s =>
    if s.sessionId == sid then
      { s with refreshTokenHash := newHash, lastTokenHash := some lastHash,
               expiresAt := newExpiry }
    else s)

end AuthRepository

/-- Error taxonomy of `AuthService.rotate_refresh_token`
(`app/exceptions/auth.py`). -/
inductive RotateError where
  | invalidToken
  | expiredToken
  | reusedToken
deriving DecidableEq, Repr

namespace AuthService

/-- `AuthService.rotate_refresh_token` (`app/services/auth_service.py`,
lines 111-152), with `presented` the hash of the presented refresh token,
`now` the current time, and `freshHash`/`newExpiry` the generated replacement
(the bounded retry loop for uniqueness collisions is outside this model).
Check order as in the code: row lookup by current hash, active user, revoked
flag, soft expiry (`expires_at`), hard expiry (`absolute_expires_at`, with
revocation), previous-hash reuse (with revocation), then rotate. -/
def rotate_refresh_token (sessions : List AuthSession) (presented : String)
    (now : Int) (freshHash : String) (newExpiry : Int) :
    Except RotateError String × List AuthSession :=
  match AuthRepository.get_refresh_token sessions presented with
  | none => (Except.error RotateError.invalidToken, sessions)
  | some row =>
    if row.userActive = false then
      (Except.error RotateError.invalidToken, sessions)
    else if row.revoked = true then
      (Except.error RotateError.reusedToken, sessions)
    else if row.expiresAt < now then
      (Except.error RotateError.expiredToken, sessions)
    else if row.absoluteExpiresAt < now then
      (Except.error RotateError.expiredToken,
       AuthRepository.revoke_by_session sessions row.sessionId)
    else if row.lastTokenHash = some presented then
      (Except.error RotateError.reusedToken,
       AuthRepository.revoke_by_session sessions row.sessionId)
    else
      (Except.ok freshHash,
       AuthRepository.rotate_refresh_token sessions row.sessionId freshHash
         presented newExpiry)

end AuthService

/-- A row of the `trained_models` operation ledger
(`app/models/orm_models/trained_models.py`), restricted to the lifecycle
fields: primary key `id`, `(user_id, fingerprint)` unique, `status`, the
`metrics` result (populated at `applied`), and the artifact `model_path`
(an empty string models a falsy path in `_inspect_paths`). -/
structure TMRow where
  id : Nat
  userId : Nat
  fingerprint : String
  status : RowStatus
  metrics : Option String
  modelPath : String
deriving DecidableEq, Repr

namespace TrainModelRepository

/-- `TrainModelRepository.try_insert_pending`:
`INSERT ... status='pending' ON CONFLICT (user_id, fingerprint) DO NOTHING
RETURNING id`; `freshId` models the generated primary key. -/
def try_insert_pending (models : List TMRow) (freshId uid : Nat)
    (fp path : String) : Option Nat × List TMRow :=
  if models.any (fun r => r.userId == uid && r.fingerprint == fp) then
    (none, models)
  else
    (some freshId,
     models ++ [{ id := freshId, userId := uid, fingerprint := fp,
                  status := RowStatus.pending, metrics := none,
                  modelPath := path }])

/-- `TrainModelRepository.get_by_user_fingerprint`:
`SELECT * WHERE user_id AND fingerprint`, at most one row by the unique
constraint. -/
def get_by_user_fingerprint (models : List TMRow) (uid : Nat) (fp : String) :
    Option TMRow :=
  models.find? (fun r => r.userId == uid && r.fingerprint == fp)

/-- `TrainModelRepository.restart_existing_row`:
`UPDATE trained_models SET status='pending', metrics=NULL
WHERE user_id AND fingerprint AND status='failed' RETURNING id`. -/
def restart_existing_row (models : List TMRow) (uid : Nat) (fp : String) :
    Option Nat × List TMRow :=
  match models.find? (fun r =>
      r.userId == uid && r.fingerprint == fp && r.status == RowStatus.failed) with
  | none => (none, models)
  | some r =>
      (some r.id,
       models.map (fun v =>
         if v.userId == uid && v.fingerprint == fp && v.status == RowStatus.failed
         then { v with status := RowStatus.pending, metrics := none }
         else v))

/-- `TrainModelRepository.mark_failed`:
`UPDATE trained_models SET status='failed' WHERE id = trained_model_id`
(unconditional on the current status); returns whether a row was updated. -/
def mark_failed (models : List TMRow) (rid : Nat) : Bool × List TMRow :=
  (models.any (fun r => r.id == rid),
   models.map (fun r =>
     if r.id == rid then { r with status := RowStatus.failed } else r))

/-- `TrainModelRepository.mark_applied`:
`UPDATE trained_models SET status='applied', metrics=... WHERE id AND
status='pending' RETURNING id`, then re-fetch the row; `none` if the row was
no longer pending. -/
def mark_applied (models : List TMRow) (rid : Nat) (m : String) :
    Option TMRow × List TMRow :=
  match models.find? (fun r => r.id == rid && r.status == RowStatus.pending) with
  | none => (none, models)
  | some _ =>
      let updated := models.map (fun r =>
        if r.id == rid && r.status == RowStatus.pending then
          { r with status := RowStatus.applied, metrics := some m }
        else r)
      (updated.find? (fun r => r.id == rid), updated)

end TrainModelRepository

/-- Caller-visible error taxonomy of `TrainModelService.train_model`. -/
inductive TrainError where
  | inProgress
  | trainingFailed
  | notEnoughTokens
deriving DecidableEq, Repr

/-- Shape of the service's success value
(`{"data": row, "charged": bool, "balance": int}`). -/
structure TrainResult where
  data : TMRow
  charged : Bool
  balance : Int
deriving DecidableEq, Repr

/-- State touched by the training flow: `users` and `trained_models`. -/
structure TrainState where
  users : List UserRec
  models : List TMRow
deriving DecidableEq, Repr

namespace TrainModelService

/-- Compute-and-apply phase of `TrainModelService.train_model` (after the
idempotency gate picked `rowId`): subprocess compute (`compute = none` models
a non-zero exit / cancellation / malformed metrics, `some m` success with
metrics `m`), then in one transaction the conditional debit and
`mark_applied`, each failure path calling `_fail_and_cleanup` (mark row
failed, unlink files); finally the temp-to-final rename (`renameOk = false`
models `ArtifactWriteException`, after which the row is marked failed
although tokens were already debited). -/
def train_compute_phase (users : List UserRec) (models : List TMRow)
    (rowId uid : Nat) (compute : Option String) (renameOk : Bool)
    (cost : Int) : Except TrainError TrainResult × TrainState :=
  match compute with
  | none =>
      (Except.error TrainError.trainingFailed,
       { users := users, models := (TrainModelRepository.mark_failed models rowId).2 })
  | some m =>
    match UserRepository.update_tokens users uid cost with
    | (none, users') =>
        (Except.error TrainError.notEnoughTokens,
         { users := users', models := (TrainModelRepository.mark_failed models rowId).2 })
    | (some balance, users') =>
      match TrainModelRepository.mark_applied models rowId m with
      | (none, models') =>
          (Except.error TrainError.trainingFailed,
           { users := users', models := (TrainModelRepository.mark_failed models' rowId).2 })
      | (some appliedRow, models') =>
          if renameOk then
            (Except.ok { data := appliedRow, charged := true, balance := balance },
             { users := users', models := models' })
          else
            (Except.error TrainError.trainingFailed,
             { users := users', models := (TrainModelRepository.mark_failed models' rowId).2 })

/-- `TrainModelService.train_model` (`app/services/train_model_service.py`,
lines 71-154) from the idempotency gate onward (validation and fingerprint
computation happen before and are pure).  The overall result is `none` when
the replay path's `get_tokens_by_id` would raise (`scalar_one()` with no
user row), which is outside the service's error taxonomy. -/
def train_model (st : TrainState) (uid freshId : Nat) (fp path : String)
    (compute : Option String) (renameOk : Bool) (cost : Int) :
    Option (Except TrainError TrainResult × TrainState) :=
  let ins := TrainModelRepository.try_insert_pending st.models freshId uid fp path
  match ins.1 with
  | some rowId => some (train_compute_phase st.users ins.2 rowId uid compute renameOk cost)
  | none =>
    match TrainModelRepository.get_by_user_fingerprint st.models uid fp with
    | none => some (Except.error TrainError.inProgress, st)
    | some existing =>
      if existing.status = RowStatus.pending then
        some (Except.error TrainError.inProgress, st)
      else if existing.status = RowStatus.applied then
        match UserRepository.get_tokens_by_id st.users uid with
        | none => none
        | some freshBalance =>
            some (Except.ok { data := existing, charged := false,
                              balance := freshBalance }, st)
      else
        match TrainModelRepository.restart_existing_row st.models uid fp with
        | (none, models') =>
            some (Except.error TrainError.inProgress,
                  { users := st.users, models := models' })
        | (some rowId, models') =>
            some (train_compute_phase st.users models' rowId uid compute renameOk cost)

end TrainModelService

/-- A row of the `predictions` operation ledger
(`app/models/orm_models/predictions.py`), restricted to the lifecycle
fields; `prediction_result` is a non-nullable string, inserted as `""`. -/
structure PredRow where
  id : Nat
  userId : Nat
  fingerprint : String
  status : RowStatus
  predictionResult : String
deriving DecidableEq, Repr

namespace PredictionRepository

/-- `PredictionRepository.try_insert_pending`:
`INSERT ... prediction_result='', status='pending'
ON CONFLICT (user_id, fingerprint) DO NOTHING RETURNING id`. -/
def try_insert_pending (preds : List PredRow) (freshId uid : Nat)
    (fp : String) : Option Nat × List PredRow :=
  if preds.any (fun r => r.userId == uid && r.fingerprint == fp) then
    (none, preds)
  else
    (some freshId,
     preds ++ [{ id := freshId, userId := uid, fingerprint := fp,
                 status := RowStatus.pending, predictionResult := "" }])

/-- `PredictionRepository.get_by_user_fingerprint`. -/
def get_by_user_fingerprint (preds : List PredRow) (uid : Nat) (fp : String) :
    Option PredRow :=
  preds.find? (fun r => r.userId == uid && r.fingerprint == fp)

/-- `PredictionRepository.restart_existing_row`:
`UPDATE predictions SET status='pending'
WHERE user_id AND fingerprint AND status='failed' RETURNING id`.
Unlike the training variant, the stored `prediction_result` is left as is. -/
def restart_existing_row (preds : List PredRow) (uid : Nat) (fp : String) :
    Option Nat × List PredRow :=
  match preds.find? (fun r =>
      r.userId == uid && r.fingerprint == fp && r.status == RowStatus.failed) with
  | none => (none, preds)
  | some r =>
      (some r.id,
       preds.map (fun v =>
         if v.userId == uid && v.fingerprint == fp && v.status == RowStatus.failed
         then { v with status := RowStatus.pending }
         else v))

/-- `PredictionRepository.mark_failed`:
`UPDATE predictions SET status='failed' WHERE id = pred_id`. -/
def mark_failed (preds : List PredRow) (rid : Nat) : List PredRow :=
  preds.map (fun r =>
    if r.id == rid then { r with status := RowStatus.failed } else r)

/-- `PredictionRepository.mark_applied`:
`UPDATE predictions SET status='applied', prediction_result=...
WHERE id AND status='pending' RETURNING id`, then re-fetch. -/
def mark_applied (preds : List PredRow) (rid : Nat) (result : String) :
    Option PredRow × List PredRow :=
  match preds.find? (fun r => r.id == rid && r.status == RowStatus.pending) with
  | none => (none, preds)
  | some _ =>
      let updated := preds.map (fun r =>
        if r.id == rid && r.status == RowStatus.pending then
          { r with status := RowStatus.applied, predictionResult := result }
        else r)
      (updated.find? (fun r => r.id == rid), updated)

end PredictionRepository

/-- Caller-visible error taxonomy of `PredictionService.predict`. -/
inductive PredictError where
  | inProgress
  | predictionFailed
  | notEnoughTokens
deriving DecidableEq, Repr

/-- Shape of the prediction service's success value. -/
structure PredictResult where
  data : PredRow
  charged : Bool
  balance : Int
deriving DecidableEq, Repr

/-- State touched by the prediction flow: `users` and `predictions`. -/
structure PredictState where
  users : List UserRec
  preds : List PredRow
deriving DecidableEq, Repr

namespace PredictionService

/-- Compute-and-apply phase of `PredictionService.predict` after the gate:
threaded compute with timeout (`compute = none` models failure/timeout,
`some s` the result string), then the conditional debit and `mark_applied`,
with `_fail_prediction_safely` on every failure path. -/
def predict_compute_phase (users : List UserRec) (preds : List PredRow)
    (rowId uid : Nat) (compute : Option String) (cost : Int) :
    Except PredictError PredictResult × PredictState :=
  match compute with
  | none =>
      (Except.error PredictError.predictionFailed,
       { users := users, preds := PredictionRepository.mark_failed preds rowId })
  | some s =>
    match UserRepository.update_tokens users uid cost with
    | (none, users') =>
        (Except.error PredictError.notEnoughTokens,
         { users := users', preds := PredictionRepository.mark_failed preds rowId })
    | (some balance, users') =>
      match PredictionRepository.mark_applied preds rowId s with
      | (none, preds') =>
          (Except.error PredictError.predictionFailed,
           { users := users', preds := PredictionRepository.mark_failed preds' rowId })
      | (some appliedRow, preds') =>
          (Except.ok { data := appliedRow, charged := true, balance := balance },
           { users := users', preds := preds' })

/-- `PredictionService.predict` (`app/services/prediction_service.py`,
lines 31-118) from the idempotency gate onward (the owned-and-applied model
row lookup and artifact load of lines 49-56 happen before the gate; the
fingerprint `fp` is computed from the loaded model id and feature values).
`none` models the replay path's `scalar_one()` raising on a missing user
row. -/
def predict (st : PredictState) (uid freshId : Nat) (fp : String)
    (compute : Option String) (cost : Int) :
    Option (Except PredictError PredictResult × PredictState) :=
  let ins := PredictionRepository.try_insert_pending st.preds freshId uid fp
  match ins.1 with
  | some rowId => some (predict_compute_phase st.users ins.2 rowId uid compute cost)
  | none =>
    match PredictionRepository.get_by_user_fingerprint st.preds uid fp with
    | none => some (Except.error PredictError.inProgress, st)
    | some existing =>
      if existing.status = RowStatus.pending then
        some (Except.error PredictError.inProgress, st)
      else if existing.status = RowStatus.applied then
        match UserRepository.get_tokens_by_id st.users uid with
        | none => none
        | some freshBalance =>
            some (Except.ok { data := existing, charged := false,
                              balance := freshBalance }, st)
      else
        match PredictionRepository.restart_existing_row st.preds uid fp with
        | (none, preds') =>
            some (Except.error PredictError.inProgress,
                  { users := st.users, preds := preds' })
        | (some rowId, preds') =>
            some (predict_compute_phase st.users preds' rowId uid compute cost)

end PredictionService

/-- Existence of the two artifact files of one training row: the final
`model_path` file and its `model_path ++ ".tmp"` sibling. -/
structure ArtifactFS where
  finalExists : Bool
  tmpExists : Bool
deriving DecidableEq, Repr

namespace Reconciler

/-- `app/maintenance/_helpers.py`, `finish_publish_or_fail` for a row already
`applied`: falsy path → mark failed; final file exists → untouched; only the
temp file exists → atomic rename (`renameOk = false` models
`ArtifactWriteException`, after which the row is marked failed and both files
unlinked); neither file → mark failed. -/
def finish_publish_or_fail (row : TMRow) (fs : ArtifactFS) (renameOk : Bool) :
    TMRow × ArtifactFS :=
  if row.modelPath = "" then
    ({ row with status := RowStatus.failed }, fs)
  else if fs.finalExists then
    (row, fs)
  else if fs.tmpExists then
    if renameOk then
      (row, { finalExists := true, tmpExists := false })
    else
      ({ row with status := RowStatus.failed },
       { finalExists := false, tmpExists := false })
  else
    ({ row with status := RowStatus.failed }, fs)

/-- `app/maintenance/_helpers.py`, `fail_pending_and_clean_tmp`: flip the
pending row to failed and best-effort delete its leftover temp file. -/
def fail_pending_and_clean_tmp (row : TMRow) (fs : ArtifactFS) :
    TMRow × ArtifactFS :=
  ({ row with status := RowStatus.failed },
   if row.modelPath = "" then fs else { fs with tmpExists := false })

/-- Per-row action of `reconcile_trained_models_on_startup`
(`app/maintenance/reconciler.py`): `applied` rows go through
`finish_publish_or_fail`, `pending` rows through
`fail_pending_and_clean_tmp`, `failed` rows are not selected. -/
def reconcile_tm_row (row : TMRow) (fs : ArtifactFS) (renameOk : Bool) :
    TMRow × ArtifactFS :=
  match row.status with
  | RowStatus.applied => finish_publish_or_fail row fs renameOk
  | RowStatus.pending => fail_pending_and_clean_tmp row fs
  | RowStatus.failed => (row, fs)

/-- Per-row action of `reconcile_predictions_on_startup`:
`UPDATE predictions SET status='failed' WHERE status='pending'`. -/
def reconcile_pred_row (row : PredRow) : PredRow :=
  if row.status = RowStatus.pending then { row with status := RowStatus.failed }
  else row

end Reconciler

/-- Lexicographic order on `(key, value)` string pairs: Python's
`sorted(d.items())` (key first, value as tie-break; for a dict the keys are
unique so the key decides). -/
def pairLe (p q : String × String) : Prop :=
  p.1 < q.1 ∨ (p.1 = q.1 ∧ p.2 ≤ q.2)

instance : DecidableRel pairLe := fun p q =>
  decidable_of_iff (p.1 < q.1 ∨ (p.1 = q.1 ∧ p.2 ≤ q.2)) Iff.rfl

instance : IsTotal (String × String) pairLe where
  total p q := by
    rcases lt_trichotomy p.1 q.1 with h | h | h
    · exact Or.inl (Or.inl h)
    · rcases le_total p.2 q.2 with h2 | h2
      · exact Or.inl (Or.inr ⟨h, h2⟩)
      · exact Or.inr (Or.inr ⟨h.symm, h2⟩)
    · exact Or.inr (Or.inl h)

instance : IsTrans (String × String) pairLe where
  trans p q r hpq hqr := by
    rcases hpq with h1 | ⟨e1, l1⟩
    · rcases hqr with h2 | ⟨e2, l2⟩
      · exact Or.inl (h1.trans h2)
      · exact Or.inl (e2 ▸ h1)
    · rcases hqr with h2 | ⟨e2, l2⟩
      · exact Or.inl (e1 ▸ h2)
      · exact Or.inr ⟨e1.trans e2, l1.trans l2⟩

instance : IsAntisymm (String × String) pairLe where
  antisymm p q hpq hqp := by
    rcases hpq with h1 | ⟨e1, l1⟩
    · rcases hqp with h2 | ⟨e2, l2⟩
      · exact absurd (h1.trans h2) (lt_irrefl _)
      · exact absurd h1 (by simp [e2, lt_irrefl])
    · rcases hqp with h2 | ⟨e2, l2⟩
      · exact absurd h2 (by simp [e1, lt_irrefl])
      · exact Prod.ext e1 (le_antisymm l1 l2)

namespace FingerprintHashing

/-- JSON string literal (inputs here are identifiers / hex digests, so no
escaping is exercised). -/
def jsonString (s : String) : String := "\"" ++ s ++ "\""

/-- JSON array of strings, `json.dumps` with `separators=(",", ":")`. -/
def jsonStringList (xs : List String) : String :=
  "[" ++ String.intercalate "," (xs.map jsonString) ++ "]"

/-- JSON object with string values and `sort_keys=True`
(`stable_json` in `app/utils/fingerprint_hashing.py`). -/
def jsonStringObj (kvs : List (String × String)) : String :=
  "\x7b" ++
    String.intercalate ","
      ((List.insertionSort pairLe kvs).map
        (fun p => jsonString p.1 ++ ":" ++ jsonString p.2)) ++
  "\x7d"

/-- 64 lowercase hex characters of `n mod 16^64`, most significant first. -/
def toHex64 (n : Nat) : String :=
  String.mk ((List.range 64).map (fun i => Nat.digitChar (n / 16 ^ (63 - i) % 16)))

/-- Deterministic stand-in for the external `hashlib.sha256(...).hexdigest()`
primitive: a pure function of the input bytes producing a fixed-length (64)
hex digest, which is all the fingerprint contract relies on. -/
def sha256Hex (bytes : List Nat) : String :=
  toHex64 (bytes.foldl (fun h b => (h * 257 + b % 256 + 1) % 2 ^ 256) 7)

/-- Digest of a string's characters (the code hashes `.encode("utf-8")`). -/
def sha256HexOfString (s : String) : String :=
  sha256Hex (s.data.map Char.toNat)

/-- `file_sha256`: streaming SHA-256 over the file's bytes.  `fsys` maps a
path to the byte content of the file stored there. -/
def file_sha256 (fsys : String → List Nat) (path : String) : String :=
  sha256Hex (fsys path)

/-- `stable_json` applied to the `parts` dict of
`compute_training_fingerprint`: its six keys in sorted order
(`data_sha256 < features < label < model_type < params < pipeline_version`). -/
def stable_json_training_parts (dataSha : String) (features : List String)
    (label mt : String) (params : List (String × String)) (pv : String) :
    String :=
  "\x7b" ++
    jsonString "data_sha256" ++ ":" ++ jsonString dataSha ++ "," ++
    jsonString "features" ++ ":" ++ jsonStringList features ++ "," ++
    jsonString "label" ++ ":" ++ jsonString label ++ "," ++
    jsonString "model_type" ++ ":" ++ jsonString mt ++ "," ++
    jsonString "params" ++ ":" ++ jsonStringObj params ++ "," ++
    jsonString "pipeline_version" ++ ":" ++ jsonString pv ++
  "\x7d"

/-- `compute_training_fingerprint` (`app/utils/fingerprint_hashing.py`,
lines 59-86): SHA-256 over the stable JSON of the dataset digest, normalized
features/label/model type/params, and the pipeline version string
(`model_code_hash()|lock=lockfile_sha(...)`, constant within a process and
passed here explicitly). -/
def compute_training_fingerprint (fsys : String → List Nat)
    (csvFilePath : String) (sortedFeaturesClean : List String)
    (labelClean modelTypeClean : String) (paramsNorm : List (String × String))
    (pipelineVersion : String) : String :=
  sha256HexOfString
    (stable_json_training_parts (file_sha256 fsys csvFilePath)
      sortedFeaturesClean labelClean modelTypeClean paramsNorm pipelineVersion)

/-- `compute_prediction_fingerprint`: SHA-256 over the stable JSON of
`(model_id, sorted(feature_values.items()))`; `sort_keys` puts `features`
before `model_id`, and the sorted items render as two-element arrays. -/
def compute_prediction_fingerprint (modelId : Nat)
    (featureValues : List (String × String)) : String :=
  sha256HexOfString
    ("\x7b" ++ jsonString "features" ++ ":[" ++
      String.intercalate ","
        ((List.insertionSort pairLe featureValues).map
          (fun p => "[" ++ jsonString p.1 ++ "," ++ jsonString p.2 ++ "]")) ++
      "]," ++ jsonString "model_id" ++ ":" ++ toString modelId ++ "\x7d")

end FingerprintHashing

theorem update_tokens_not_found (users : List UserRec) (uid : Nat) (cost : Int)
    (h : ∀ v ∈ users, ¬(v.id = uid ∧ cost ≤ v.tokens)) :
    UserRepository.update_tokens users uid cost = (none, users) := by
  induction users with
  | nil => rfl
  | cons v rest ih =>
    have hv := h v (List.mem_cons_self v rest)
    have hrest := ih (fun w hw => h w (List.mem_cons_of_mem v hw))
    simp [UserRepository.update_tokens, if_neg hv, hrest]

theorem update_tokens_success (users : List UserRec) (uid : Nat) (cost : Int)
    (u : UserRec) (hu : users.find? (fun v => v.id == uid) = some u)
    (hle : cost ≤ u.tokens) :
    (UserRepository.update_tokens users uid cost).1 = some (u.tokens - cost) ∧
    UserRepository.get_tokens_by_id
        (UserRepository.update_tokens users uid cost).2 uid =
      some (u.tokens - cost) := by
  induction users with
  | nil => simp [List.find?] at hu
  | cons v rest ih =>
    by_cases hv : v.id = uid
    · rw [List.find?_cons_of_pos _ (by simp [hv])] at hu
      injection hu with hu
      subst hu
      have hupd : UserRepository.update_tokens (v :: rest) uid cost =
          (some (v.tokens - cost), { v with tokens := v.tokens - cost } :: rest) := by
        simp only [UserRepository.update_tokens]
        rw [if_pos ⟨hv, hle⟩]
      rw [hupd]
      refine ⟨rfl, ?_⟩
      simp only [UserRepository.get_tokens_by_id]
      rw [List.find?_cons_of_pos _ (by simp [hv])]
      rfl
    · rw [List.find?_cons_of_neg _ (by simp [hv])] at hu
      have hupd : UserRepository.update_tokens (v :: rest) uid cost =
          ((UserRepository.update_tokens rest uid cost).1,
           v :: (UserRepository.update_tokens rest uid cost).2) := by
        simp only [UserRepository.update_tokens]
        rw [if_neg (show ¬(v.id = uid ∧ cost ≤ v.tokens) from fun hc => hv hc.1)]
      rw [hupd]
      refine ⟨(ih hu).1, ?_⟩
      simp only [UserRepository.get_tokens_by_id]
      rw [List.find?_cons_of_neg _ (by simp [hv])]
      have h2 := (ih hu).2
      simp only [UserRepository.get_tokens_by_id] at h2
      exact h2

theorem mem_id_unique {users : List UserRec} {u v : UserRec}
    (hnd : (users.map UserRec.id).Nodup) (hu : u ∈ users) (hv : v ∈ users)
    (h : u.id = v.id) : u = v :=
  List.inj_on_of_nodup_map hnd hu hv h

theorem update_tokens_insufficient (users : List UserRec) (uid : Nat)
    (cost : Int) (u : UserRec)
    (hu : users.find? (fun v => v.id == uid) = some u)
    (hnd : (users.map UserRec.id).Nodup) (hlt : u.tokens < cost) :
    UserRepository.update_tokens users uid cost = (none, users) := by
  have huid : u.id = uid := by
    have := List.find?_some hu
    simpa using this
  have humem : u ∈ users := List.mem_of_find?_eq_some hu
  refine update_tokens_not_found users uid cost (fun v hv hc => ?_)
  have : u = v := mem_id_unique hnd humem hv (by rw [huid, hc.1])
  rw [← this] at hc
  exact absurd hc.2 (not_le.mpr hlt)

theorem add_tokens_not_found (users : List UserRec) (uid : Nat) (amount : Int)
    (h : ∀ v ∈ users, ¬(v.id = uid ∧ v.tokens = 0 ∧ v.isActive = true)) :
    UserRepository.add_tokens users uid amount = (none, users) := by
  induction users with
  | nil => rfl
  | cons v rest ih =>
    have hv := h v (List.mem_cons_self v rest)
    have hrest := ih (fun w hw => h w (List.mem_cons_of_mem v hw))
    simp [UserRepository.add_tokens, if_neg hv, hrest]

theorem add_tokens_guard_violated (users : List UserRec) (uid : Nat)
    (amount : Int) (u : UserRec)
    (hu : users.find? (fun v => v.id == uid) = some u)
    (hnd : (users.map UserRec.id).Nodup)
    (hguard : ¬(u.tokens = 0 ∧ u.isActive = true)) :
    UserRepository.add_tokens users uid amount = (none, users) := by
  have huid : u.id = uid := by
    have := List.find?_some hu
    simpa using this
  have humem : u ∈ users := List.mem_of_find?_eq_some hu
  refine add_tokens_not_found users uid amount (fun v hv hc => ?_)
  have : u = v := mem_id_unique hnd humem hv (by rw [huid, hc.1])
  rw [← this] at hc
  exact hguard hc.2

/-- C4: for every owner (row `u` of `users`, ids unique by primary key) and
every cost ≥ 0: the debit (`update_tokens`) succeeds and returns
`balance − cost` exactly when `balance ≥ cost` — storing that value, which is
≥ 0 — and otherwise reports insufficient funds leaving the table unchanged;
the credit (`add_tokens`) succeeds only when the current balance is exactly
0, and returns `none` with no mutation when the balance is non-zero. -/
theorem C4_token_balance_guards (users : List UserRec) (uid : Nat)
    (cost amount : Int) (u : UserRec)
    (hu : users.find? (fun v => v.id == uid) = some u)
    (hnd : (users.map UserRec.id).Nodup)
    (hcost : 0 ≤ cost) (htok : 0 ≤ u.tokens) :
    (cost ≤ u.tokens →
      (UserRepository.update_tokens users uid cost).1 = some (u.tokens - cost) ∧
      UserRepository.get_tokens_by_id
          (UserRepository.update_tokens users uid cost).2 uid =
        some (u.tokens - cost) ∧
      0 ≤ u.tokens - cost) ∧
    (u.tokens < cost →
      UserRepository.update_tokens users uid cost = (none, users)) ∧
    ((UserRepository.add_tokens users uid amount).1.isSome → u.tokens = 0) ∧
    (u.tokens ≠ 0 →
      UserRepository.add_tokens users uid amount = (none, users)) := by
  refine ⟨fun hle => ?_, fun hlt => ?_, fun hsome => ?_, fun hnz => ?_⟩
  · obtain ⟨h1, h2⟩ := update_tokens_success users uid cost u hu hle
    exact ⟨h1, h2, sub_nonneg.mpr hle⟩
  · exact update_tokens_insufficient users uid cost u hu hnd hlt
  · by_contra hnz
    rw [add_tokens_guard_violated users uid amount u hu hnd
      (fun hc => hnz hc.1)] at hsome
    simp at hsome
  · rw [add_tokens_guard_violated users uid amount u hu hnd (fun hc => hnz hc.1)]

theorem C4_token_balance_guards_witness :
    (UserRepository.update_tokens [{ id := 1, tokens := 5, isActive := true }] 1 3).1 =
      some 2 ∧
    UserRepository.add_tokens [{ id := 1, tokens := 5, isActive := true }] 1 7 =
      (none, [{ id := 1, tokens := 5, isActive := true }]) := by
  have h := C4_token_balance_guards
    [{ id := 1, tokens := 5, isActive := true }] 1 3 7
    { id := 1, tokens := 5, isActive := true }
    (by decide) (by decide) (by decide) (by decide)
  refine ⟨?_, h.2.2.2 (by decide)⟩
  have h1 := (h.1 (by decide)).1
  simpa using h1

theorem mark_failed_skips (credits : List CreditRow) (uid : Nat) (key : String)
    (h : ∀ c ∈ credits, ¬(c.userId = uid ∧ c.key = key)) :
    TokenCreditRepository.mark_failed credits uid key = credits := by
  induction credits with
  | nil => rfl
  | cons c t ih =>
    have hcb : ¬((c.userId == uid && c.key == key) = true) := by
      simpa [Bool.and_eq_true, beq_iff_eq] using h c (List.mem_cons_self c t)
    have iht := ih (fun d hd => h d (List.mem_cons_of_mem c hd))
    simp only [TokenCreditRepository.mark_failed, List.map_cons, if_neg hcb] at iht ⊢
    rw [iht]

theorem mark_failed_append_single (credits : List CreditRow) (uid : Nat)
    (key : String)
    (h : ∀ c ∈ credits, ¬(c.userId = uid ∧ c.key = key)) :
    TokenCreditRepository.mark_failed
        (credits ++ [{ userId := uid, key := key, status := RowStatus.pending,
                       openBalance := none }]) uid key =
      credits ++ [{ userId := uid, key := key, status := RowStatus.failed,
                    openBalance := none }] := by
  have h1 := mark_failed_skips credits uid key h
  unfold TokenCreditRepository.mark_failed at h1 ⊢
  rw [List.map_append, h1]
  simp

/-- C3: for a fixed `(owner, idempotency_key)` whose ledger row exists,
the purchase is idempotent per key: an `applied` row with a recorded balance
is replayed verbatim with no state change (so no second credit); a `failed`
row replays the zero-balance policy violation; a `pending` row surfaces the
in-progress conflict — in each case the ledger and the balances are
untouched. -/
theorem C3_purchase_idempotent (st : LedgerState) (uid : Nat) (amount : Int)
    (key : String) (row : CreditRow)
    (hrow : st.credits.find? (fun c => c.userId == uid && c.key == key) =
      some row) :
    (∀ b, row.status = RowStatus.applied → row.openBalance = some b →
      TokenCreditService.buy_tokens st uid amount key = (Except.ok b, st)) ∧
    (row.status = RowStatus.failed →
      TokenCreditService.buy_tokens st uid amount key =
        (Except.error BuyError.balanceMustBeZero, st)) ∧
    (row.status = RowStatus.pending →
      TokenCreditService.buy_tokens st uid amount key =
        (Except.error BuyError.purchaseInProgress, st)) := by
  have hmem := List.mem_of_find?_eq_some hrow
  have hpred := List.find?_some hrow
  have hany : st.credits.any (fun c => c.userId == uid && c.key == key) = true :=
    List.any_eq_true.mpr ⟨row, hmem, hpred⟩
  have hins : TokenCreditRepository.try_insert_pending st.credits uid key =
      (false, st.credits) := by
    simp [TokenCreditRepository.try_insert_pending, hany]
  have hget : TokenCreditRepository.get_by_key_status_open_balance
      st.credits uid key = some (row.status, row.openBalance) := by
    simp [TokenCreditRepository.get_by_key_status_open_balance, hrow]
  refine ⟨fun b hs hb => ?_, fun hs => ?_, fun hs => ?_⟩
  · simp [TokenCreditService.buy_tokens, hins, hget, hs, hb]
  · simp [TokenCreditService.buy_tokens, hins, hget, hs]
  · simp [TokenCreditService.buy_tokens, hins, hget, hs]

theorem C3_purchase_idempotent_witness :
    TokenCreditService.buy_tokens
        { users := [],
          credits := [{ userId := 1, key := "k", status := RowStatus.applied,
                        openBalance := some 10 }] } 1 7 "k" =
      (Except.ok 10,
       { users := [],
         credits := [{ userId := 1, key := "k", status := RowStatus.applied,
                       openBalance := some 10 }] }) :=
  (C3_purchase_idempotent
      { users := [],
        credits := [{ userId := 1, key := "k", status := RowStatus.applied,
                      openBalance := some 10 }] } 1 7 "k"
      { userId := 1, key := "k", status := RowStatus.applied,
        openBalance := some 10 }
      (by decide)).1 10 rfl rfl

/-- C10: the credit is additionally conditioned on `is_active`: for an
inactive user with balance exactly 0 and a fresh idempotency key, the
conditional `add_tokens` matches no row, so the purchase records the ledger
row as `failed`, surfaces the zero-balance policy violation, and leaves the
user table unchanged. -/
theorem C10_inactive_user_credit_fails (st : LedgerState) (uid : Nat)
    (amount : Int) (key : String) (u : UserRec)
    (hu : st.users.find? (fun v => v.id == uid) = some u)
    (hnd : (st.users.map UserRec.id).Nodup)
    (hinactive : u.isActive = false) (hzero : u.tokens = 0)
    (hnokey : ∀ c ∈ st.credits, ¬(c.userId = uid ∧ c.key = key)) :
    (TokenCreditService.buy_tokens st uid amount key).1 =
      Except.error BuyError.balanceMustBeZero ∧
    (TokenCreditService.buy_tokens st uid amount key).2.users = st.users ∧
    TokenCreditRepository.get_by_key_status_open_balance
        (TokenCreditService.buy_tokens st uid amount key).2.credits uid key =
      some (RowStatus.failed, none) := by
  have hany : st.credits.any (fun c => c.userId == uid && c.key == key) = false := by
    rw [List.any_eq_false]
    intro c hc
    simpa [Bool.and_eq_true, beq_iff_eq] using hnokey c hc
  have hins : TokenCreditRepository.try_insert_pending st.credits uid key =
      (true, st.credits ++ [{ userId := uid, key := key,
                              status := RowStatus.pending,
                              openBalance := none }]) := by
    simp [TokenCreditRepository.try_insert_pending, hany]
  have hadd : UserRepository.add_tokens st.users uid amount = (none, st.users) :=
    add_tokens_guard_violated st.users uid amount u hu hnd
      (fun hc => by rw [hinactive] at hc; exact Bool.false_ne_true hc.2)
  have hmf := mark_failed_append_single st.credits uid key hnokey
  have hbuy : TokenCreditService.buy_tokens st uid amount key =
      (Except.error BuyError.balanceMustBeZero,
       { users := st.users,
         credits := st.credits ++ [{ userId := uid, key := key,
                                     status := RowStatus.failed,
                                     openBalance := none }] }) := by
    simp [TokenCreditService.buy_tokens, hins, hadd, hmf]
  refine ⟨by rw [hbuy], by rw [hbuy], ?_⟩
  rw [hbuy]
  have hnone : st.credits.find? (fun c => c.userId == uid && c.key == key) = none := by
    rw [List.find?_eq_none]
    intro c hc
    simpa [Bool.and_eq_true, beq_iff_eq] using hnokey c hc
  simp [TokenCreditRepository.get_by_key_status_open_balance, List.find?_append, hnone]

theorem C10_inactive_user_credit_fails_witness :
    (TokenCreditService.buy_tokens
        { users := [{ id := 1, tokens := 0, isActive := false }], credits := [] }
        1 7 "k").1 = Except.error BuyError.balanceMustBeZero ∧
    (TokenCreditService.buy_tokens
        { users := [{ id := 1, tokens := 0, isActive := false }], credits := [] }
        1 7 "k").2.users = [{ id := 1, tokens := 0, isActive := false }] ∧
    TokenCreditRepository.get_by_key_status_open_balance
        (TokenCreditService.buy_tokens
          { users := [{ id := 1, tokens := 0, isActive := false }], credits := [] }
          1 7 "k").2.credits 1 "k" =
      some (RowStatus.failed, none) :=
  C10_inactive_user_credit_fails
    { users := [{ id := 1, tokens := 0, isActive := false }], credits := [] }
    1 7 "k" { id := 1, tokens := 0, isActive := false }
    (by decide) (by decide) (by decide) (by decide) (by decide)

/-- C1: the spec requires that presenting a refresh token whose hash equals
the session's stored previous hash revokes the session and rejects with the
reuse error.  The code looks sessions up by the current hash column only
(`AuthRepository.get_refresh_token`), so replaying the superseded hash finds
no row: evaluated at such a session, the rotation rejects with the
invalid-token error and leaves the session unrevoked (the reuse branch of
the service would require `refresh_token_hash = last_token_hash` on the
found row and is unreachable after a normal rotation). -/
theorem C1_reuse_replay_not_revoked :
    AuthService.rotate_refresh_token
        [{ sessionId := 1, refreshTokenHash := "h2", lastTokenHash := some "h1",
           revoked := false, userActive := true, expiresAt := 100,
           absoluteExpiresAt := 200 }] "h1" 50 "h9" 150 =
      (Except.error RotateError.invalidToken,
       [{ sessionId := 1, refreshTokenHash := "h2", lastTokenHash := some "h1",
          revoked := false, userActive := true, expiresAt := 100,
          absoluteExpiresAt := 200 }]) := rfl

/-- C7 counterexample: a session whose soft and hard expiries have both
passed (here `expires_at = 100 < absolute_expires_at = 200 < now = 300`) is
rejected by the soft-expiry check first, without revoking: the state comes
back unchanged with `revoked = false`, although the claim requires every
request with hard expiry in the past to revoke the session. -/
theorem C7_counterexample_both_expired :
    AuthService.rotate_refresh_token
        [{ sessionId := 1, refreshTokenHash := "h2", lastTokenHash := none,
           revoked := false, userActive := true, expiresAt := 100,
           absoluteExpiresAt := 200 }] "h2" 300 "h9" 350 =
      (Except.error RotateError.expiredToken,
       [{ sessionId := 1, refreshTokenHash := "h2", lastTokenHash := none,
          revoked := false, userActive := true, expiresAt := 100,
          absoluteExpiresAt := 200 }]) := rfl

/-- C7 amended: the soft-expiry check runs before the hard-expiry check.
A rotation request whose hard expiry is in the past and whose soft expiry is
not revokes the session and rejects as expired; a request whose soft expiry
is in the past is rejected as expired without revoking the session,
regardless of the hard expiry. -/
theorem C7_expiry_checks_amended (sessions : List AuthSession)
    (presented : String) (now : Int) (fresh : String) (newExp : Int)
    (row : AuthSession)
    (hrow : AuthRepository.get_refresh_token sessions presented = some row)
    (hactive : row.userActive = true) (hrev : row.revoked = false) :
    (¬(row.expiresAt < now) → row.absoluteExpiresAt < now →
      AuthService.rotate_refresh_token sessions presented now fresh newExp =
        (Except.error RotateError.expiredToken,
         AuthRepository.revoke_by_session sessions row.sessionId)) ∧
    (row.expiresAt < now →
      AuthService.rotate_refresh_token sessions presented now fresh newExp =
        (Except.error RotateError.expiredToken, sessions)) := by
  constructor
  · intro hsoft hhard
    simp [AuthService.rotate_refresh_token, hrow, hactive, hrev, hsoft, hhard]
  · intro hsoft
    simp [AuthService.rotate_refresh_token, hrow, hactive, hrev, hsoft]

theorem C7_expiry_checks_amended_witness :
    AuthService.rotate_refresh_token
        [{ sessionId := 1, refreshTokenHash := "h2", lastTokenHash := none,
           revoked := false, userActive := true, expiresAt := 400,
           absoluteExpiresAt := 200 }] "h2" 300 "h9" 350 =
      (Except.error RotateError.expiredToken,
       AuthRepository.revoke_by_session
         [{ sessionId := 1, refreshTokenHash := "h2", lastTokenHash := none,
            revoked := false, userActive := true, expiresAt := 400,
            absoluteExpiresAt := 200 }] 1) :=
  (C7_expiry_checks_amended
      [{ sessionId := 1, refreshTokenHash := "h2", lastTokenHash := none,
         revoked := false, userActive := true, expiresAt := 400,
         absoluteExpiresAt := 200 }] "h2" 300 "h9" 350
      { sessionId := 1, refreshTokenHash := "h2", lastTokenHash := none,
        revoked := false, userActive := true, expiresAt := 400,
        absoluteExpiresAt := 200 }
      (by decide) (by decide) (by decide)).1 (by decide) (by decide)

/-- C2: an operation submission (training or prediction) whose
`(owner, fingerprint)` row already exists with status `applied` replays the
stored row: the service returns it with `charged := false` and the owner's
current balance, the state comes back entirely unchanged (no debit, row
untouched), and — as the result is the same for every compute outcome — the
compute callback is never consulted. -/
theorem C2_applied_replay
    (tst : TrainState) (pst : PredictState) (uid freshId : Nat)
    (fp path : String) (cost tbal pbal : Int)
    (trow : TMRow) (prow : PredRow)
    (htrow : TrainModelRepository.get_by_user_fingerprint tst.models uid fp =
      some trow)
    (htapp : trow.status = RowStatus.applied)
    (htbal : UserRepository.get_tokens_by_id tst.users uid = some tbal)
    (hprow : PredictionRepository.get_by_user_fingerprint pst.preds uid fp =
      some prow)
    (hpapp : prow.status = RowStatus.applied)
    (hpbal : UserRepository.get_tokens_by_id pst.users uid = some pbal) :
    (∀ compute renameOk,
      TrainModelService.train_model tst uid freshId fp path compute renameOk cost =
        some (Except.ok { data := trow, charged := false, balance := tbal }, tst)) ∧
    (∀ compute,
      PredictionService.predict pst uid freshId fp compute cost =
        some (Except.ok { data := prow, charged := false, balance := pbal }, pst)) := by
  constructor
  · intro compute renameOk
    have hmem := List.mem_of_find?_eq_some htrow
    have hpred := List.find?_some htrow
    have hany : tst.models.any (fun r => r.userId == uid && r.fingerprint == fp) =
        true := List.any_eq_true.mpr ⟨trow, hmem, hpred⟩
    have hins : TrainModelRepository.try_insert_pending tst.models freshId uid fp path =
        (none, tst.models) := by
      simp [TrainModelRepository.try_insert_pending, hany]
    simp [TrainModelService.train_model, hins, htrow, htapp, htbal]
  · intro compute
    have hmem := List.mem_of_find?_eq_some hprow
    have hpred := List.find?_some hprow
    have hany : pst.preds.any (fun r => r.userId == uid && r.fingerprint == fp) =
        true := List.any_eq_true.mpr ⟨prow, hmem, hpred⟩
    have hins : PredictionRepository.try_insert_pending pst.preds freshId uid fp =
        (none, pst.preds) := by
      simp [PredictionRepository.try_insert_pending, hany]
    simp [PredictionService.predict, hins, hprow, hpapp, hpbal]

theorem C2_applied_replay_witness :
    TrainModelService.train_model
        { users := [{ id := 1, tokens := 9, isActive := true }],
          models := [{ id := 4, userId := 1, fingerprint := "fp",
                       status := RowStatus.applied, metrics := some "m",
                       modelPath := "p" }] } 1 99 "fp" "p" none false 10 =
      some (Except.ok
        { data := { id := 4, userId := 1, fingerprint := "fp",
                    status := RowStatus.applied, metrics := some "m",
                    modelPath := "p" },
          charged := false, balance := 9 },
        { users := [{ id := 1, tokens := 9, isActive := true }],
          models := [{ id := 4, userId := 1, fingerprint := "fp",
                       status := RowStatus.applied, metrics := some "m",
                       modelPath := "p" }] }) ∧
    PredictionService.predict
        { users := [{ id := 1, tokens := 9, isActive := true }],
          preds := [{ id := 6, userId := 1, fingerprint := "fp",
                      status := RowStatus.applied,
                      predictionResult := "cat" }] } 1 99 "fp" none 10 =
      some (Except.ok
        { data := { id := 6, userId := 1, fingerprint := "fp",
                    status := RowStatus.applied, predictionResult := "cat" },
          charged := false, balance := 9 },
        { users := [{ id := 1, tokens := 9, isActive := true }],
          preds := [{ id := 6, userId := 1, fingerprint := "fp",
                      status := RowStatus.applied,
                      predictionResult := "cat" }] }) := by
  have h := C2_applied_replay
    { users := [{ id := 1, tokens := 9, isActive := true }],
      models := [{ id := 4, userId := 1, fingerprint := "fp",
                   status := RowStatus.applied, metrics := some "m",
                   modelPath := "p" }] }
    { users := [{ id := 1, tokens := 9, isActive := true }],
      preds := [{ id := 6, userId := 1, fingerprint := "fp",
                  status := RowStatus.applied, predictionResult := "cat" }] }
    1 99 "fp" "p" 10 9 9
    { id := 4, userId := 1, fingerprint := "fp", status := RowStatus.applied,
      metrics := some "m", modelPath := "p" }
    { id := 6, userId := 1, fingerprint := "fp", status := RowStatus.applied,
      predictionResult := "cat" }
    (by decide) (by decide) (by decide) (by decide) (by decide) (by decide)
  exact ⟨h.1 none false, h.2 none⟩

theorem find?_strong_of_find?_weak {α : Type} (p q : α → Bool) (l : List α)
    (x : α) (hw : l.find? p = some x) (hq : q x = true)
    (himp : ∀ y, q y = true → p y = true) :
    l.find? q = some x := by
  induction l with
  | nil => simp at hw
  | cons a t ih =>
    by_cases ha : p a = true
    · rw [List.find?_cons_of_pos _ ha] at hw
      injection hw with hw
      subst hw
      rw [List.find?_cons_of_pos _ hq]
    · rw [List.find?_cons_of_neg _ ha] at hw
      have hqa : ¬q a = true := fun h => ha (himp a h)
      rw [List.find?_cons_of_neg _ hqa]
      exact ih hw

theorem find?_map_cond {α : Type} (p q : α → Bool) (f : α → α) (l : List α)
    (x : α) (hw : l.find? p = some x) (hq : q x = true)
    (himp : ∀ y, q y = true → p y = true) (hpf : p (f x) = true) :
    (l.map (fun y => if q y then f y else y)).find? p = some (f x) := by
  induction l with
  | nil => simp at hw
  | cons a t ih =>
    by_cases ha : p a = true
    · rw [List.find?_cons_of_pos _ ha] at hw
      injection hw with hw
      subst hw
      simp only [List.map_cons, if_pos hq]
      rw [List.find?_cons_of_pos _ hpf]
    · rw [List.find?_cons_of_neg _ ha] at hw
      have hqa : ¬q a = true := fun h => ha (himp a h)
      simp only [List.map_cons, if_neg hqa]
      rw [List.find?_cons_of_neg _ ha]
      exact ih hw

/-- C8 counterexample: restarting a failed prediction row does not clear the
stored result: a failed row carrying `prediction_result = "stale"` comes back
`pending` and still carries `"stale"` (the training restart, by contrast,
nulls `metrics`), refuting "clears any stale result stored on the row" for
the prediction kind. -/
theorem C8_counterexample_result_not_cleared :
    PredictionRepository.restart_existing_row
        [{ id := 7, userId := 1, fingerprint := "fp",
           status := RowStatus.failed, predictionResult := "stale" }] 1 "fp" =
      (some 7,
       [{ id := 7, userId := 1, fingerprint := "fp",
          status := RowStatus.pending, predictionResult := "stale" }]) := rfl

/-- C8 amended: for the unique `(owner, fingerprint)` row in status `failed`,
restart conditionally flips it back to `pending` and returns the existing
row id for reuse; the training restart clears the stale `metrics`, while the
prediction restart leaves the stored `prediction_result` in place; when no
`failed` row matches (a concurrent restart won the race), the conditional
update returns `none` with the table unchanged (the callers raise the
in-progress conflict on `none`). -/
theorem C8_restart_amended (models : List TMRow) (preds : List PredRow)
    (uid : Nat) (fp : String) (tr : TMRow) (pr : PredRow)
    (htr : TrainModelRepository.get_by_user_fingerprint models uid fp = some tr)
    (htf : tr.status = RowStatus.failed)
    (hpr : PredictionRepository.get_by_user_fingerprint preds uid fp = some pr)
    (hpf : pr.status = RowStatus.failed) :
    (TrainModelRepository.restart_existing_row models uid fp).1 = some tr.id ∧
    TrainModelRepository.get_by_user_fingerprint
        (TrainModelRepository.restart_existing_row models uid fp).2 uid fp =
      some { tr with status := RowStatus.pending, metrics := none } ∧
    (PredictionRepository.restart_existing_row preds uid fp).1 = some pr.id ∧
    PredictionRepository.get_by_user_fingerprint
        (PredictionRepository.restart_existing_row preds uid fp).2 uid fp =
      some { pr with status := RowStatus.pending } ∧
    (∀ ms : List TMRow,
      (∀ r ∈ ms, ¬(r.userId = uid ∧ r.fingerprint = fp ∧
                   r.status = RowStatus.failed)) →
      TrainModelRepository.restart_existing_row ms uid fp = (none, ms)) ∧
    (∀ ps : List PredRow,
      (∀ r ∈ ps, ¬(r.userId = uid ∧ r.fingerprint = fp ∧
                   r.status = RowStatus.failed)) →
      PredictionRepository.restart_existing_row ps uid fp = (none, ps)) := by
  have htw := List.find?_some htr
  have hpw := List.find?_some hpr
  have htq : (fun r : TMRow => r.userId == uid && r.fingerprint == fp &&
      r.status == RowStatus.failed) tr = true := by
    simp only [Bool.and_eq_true_iff]
    exact ⟨Bool.and_eq_true_iff.mp htw, by simp [htf]⟩
  have hpq : (fun r : PredRow => r.userId == uid && r.fingerprint == fp &&
      r.status == RowStatus.failed) pr = true := by
    simp only [Bool.and_eq_true_iff]
    exact ⟨Bool.and_eq_true_iff.mp hpw, by simp [hpf]⟩
  have htimp : ∀ y : TMRow,
      (fun r : TMRow => r.userId == uid && r.fingerprint == fp &&
        r.status == RowStatus.failed) y = true →
      (fun r : TMRow => r.userId == uid && r.fingerprint == fp) y = true := by
    intro y hy
    exact (Bool.and_eq_true_iff.mp hy).1
  have hpimp : ∀ y : PredRow,
      (fun r : PredRow => r.userId == uid && r.fingerprint == fp &&
        r.status == RowStatus.failed) y = true →
      (fun r : PredRow => r.userId == uid && r.fingerprint == fp) y = true := by
    intro y hy
    exact (Bool.and_eq_true_iff.mp hy).1
  have htfind := find?_strong_of_find?_weak _ _ models tr htr htq htimp
  have hpfind := find?_strong_of_find?_weak _ _ preds pr hpr hpq hpimp
  refine ⟨?_, ?_, ?_, ?_, ?_, ?_⟩
  · simp only [TrainModelRepository.restart_existing_row, htfind]
  · have hmap := find?_map_cond _ _
      (fun v : TMRow => { v with status := RowStatus.pending, metrics := none })
      models tr htr htq htimp htw
    have h2 : (TrainModelRepository.restart_existing_row models uid fp).2 =
        models.map (fun v =>
          if v.userId == uid && v.fingerprint == fp &&
              v.status == RowStatus.failed
          then { v with status := RowStatus.pending, metrics := none }
          else v) := by
      simp only [TrainModelRepository.restart_existing_row, htfind]
    rw [TrainModelRepository.get_by_user_fingerprint, h2]
    exact hmap
  · simp only [PredictionRepository.restart_existing_row, hpfind]
  · have hmap := find?_map_cond _ _
      (fun v : PredRow => { v with status := RowStatus.pending })
      preds pr hpr hpq hpimp hpw
    have h2 : (PredictionRepository.restart_existing_row preds uid fp).2 =
        preds.map (fun v =>
          if v.userId == uid && v.fingerprint == fp &&
              v.status == RowStatus.failed
          then { v with status := RowStatus.pending }
          else v) := by
      simp only [PredictionRepository.restart_existing_row, hpfind]
    rw [PredictionRepository.get_by_user_fingerprint, h2]
    exact hmap
  · intro ms hms
    have : ms.find? (fun r : TMRow => r.userId == uid && r.fingerprint == fp &&
        r.status == RowStatus.failed) = none := by
      rw [List.find?_eq_none]
      intro r hr
      simpa [Bool.and_eq_true, beq_iff_eq, and_assoc] using hms r hr
    simp [TrainModelRepository.restart_existing_row, this]
  · intro ps hps
    have : ps.find? (fun r : PredRow => r.userId == uid && r.fingerprint == fp &&
        r.status == RowStatus.failed) = none := by
      rw [List.find?_eq_none]
      intro r hr
      simpa [Bool.and_eq_true, beq_iff_eq, and_assoc] using hps r hr
    simp [PredictionRepository.restart_existing_row, this]

theorem C8_restart_amended_witness :
    (TrainModelRepository.restart_existing_row
        [{ id := 3, userId := 1, fingerprint := "fp",
           status := RowStatus.failed, metrics := some "old",
           modelPath := "p" }] 1 "fp").1 = some 3 ∧
    TrainModelRepository.get_by_user_fingerprint
        (TrainModelRepository.restart_existing_row
          [{ id := 3, userId := 1, fingerprint := "fp",
             status := RowStatus.failed, metrics := some "old",
             modelPath := "p" }] 1 "fp").2 1 "fp" =
      some { id := 3, userId := 1, fingerprint := "fp",
             status := RowStatus.pending, metrics := none,
             modelPath := "p" } := by
  have h := C8_restart_amended
    [{ id := 3, userId := 1, fingerprint := "fp", status := RowStatus.failed,
       metrics := some "old", modelPath := "p" }]
    [{ id := 7, userId := 1, fingerprint := "fp", status := RowStatus.failed,
       predictionResult := "stale" }] 1 "fp"
    { id := 3, userId := 1, fingerprint := "fp", status := RowStatus.failed,
      metrics := some "old", modelPath := "p" }
    { id := 7, userId := 1, fingerprint := "fp", status := RowStatus.failed,
      predictionResult := "stale" }
    (by decide) (by decide) (by decide) (by decide)
  exact ⟨h.1, h.2.1⟩

/-- C5: the startup reconciler's decision table.  For a training row found
`applied` (with a real artifact path): final file present → row and files
untouched; only the temp file present → published by the atomic rename and
still `applied`; rename failure → row `failed` and both files deleted;
neither file → row `failed`.  Every row found `pending` is marked `failed`
(training rows also lose their leftover temp file; prediction rows are
flipped by a bulk update).  Afterwards no row is left `pending`. -/
theorem C5_reconciler_cases (row : TMRow) (prow : PredRow) (fs : ArtifactFS)
    (renameOk : Bool) (hpath : row.modelPath ≠ "") :
    (row.status = RowStatus.applied → fs.finalExists = true →
      Reconciler.reconcile_tm_row row fs renameOk = (row, fs)) ∧
    (row.status = RowStatus.applied → fs.finalExists = false →
      fs.tmpExists = true → renameOk = true →
      Reconciler.reconcile_tm_row row fs renameOk =
        (row, { finalExists := true, tmpExists := false })) ∧
    (row.status = RowStatus.applied → fs.finalExists = false →
      fs.tmpExists = true → renameOk = false →
      Reconciler.reconcile_tm_row row fs renameOk =
        ({ row with status := RowStatus.failed },
         { finalExists := false, tmpExists := false })) ∧
    (row.status = RowStatus.applied → fs.finalExists = false →
      fs.tmpExists = false →
      Reconciler.reconcile_tm_row row fs renameOk =
        ({ row with status := RowStatus.failed }, fs)) ∧
    (row.status = RowStatus.pending →
      Reconciler.reconcile_tm_row row fs renameOk =
        ({ row with status := RowStatus.failed },
         { fs with tmpExists := false })) ∧
    (prow.status = RowStatus.pending →
      Reconciler.reconcile_pred_row prow =
        { prow with status := RowStatus.failed }) ∧
    (Reconciler.reconcile_tm_row row fs renameOk).1.status ≠ RowStatus.pending ∧
    (Reconciler.reconcile_pred_row prow).status ≠ RowStatus.pending := by
  refine ⟨?_, ?_, ?_, ?_, ?_, ?_, ?_, ?_⟩
  · intro hs hf
    simp [Reconciler.reconcile_tm_row, hs, Reconciler.finish_publish_or_fail,
          hpath, hf]
  · intro hs hf ht hr
    simp [Reconciler.reconcile_tm_row, hs, Reconciler.finish_publish_or_fail,
          hpath, hf, ht, hr]
  · intro hs hf ht hr
    simp [Reconciler.reconcile_tm_row, hs, Reconciler.finish_publish_or_fail,
          hpath, hf, ht, hr]
  · intro hs hf ht
    simp [Reconciler.reconcile_tm_row, hs, Reconciler.finish_publish_or_fail,
          hpath, hf, ht]
  · intro hs
    simp [Reconciler.reconcile_tm_row, hs, Reconciler.fail_pending_and_clean_tmp,
          hpath]
  · intro hs
    simp [Reconciler.reconcile_pred_row, hs]
  · cases hs : row.status with
    | pending =>
        simp [Reconciler.reconcile_tm_row, hs,
              Reconciler.fail_pending_and_clean_tmp]
    | applied =>
        simp only [Reconciler.reconcile_tm_row, hs,
                   Reconciler.finish_publish_or_fail]
        split
        · simp
        · split
          · simp [hs]
          · split
            · split
              · simp [hs]
              · simp
            · simp
    | failed => simp [Reconciler.reconcile_tm_row, hs]
  · simp only [Reconciler.reconcile_pred_row]
    split
    · simp
    · rename_i hne
      cases hs : prow.status with
      | pending => exact absurd hs hne
      | applied => simp [hs]
      | failed => simp [hs]

theorem C5_reconciler_cases_witness :
    Reconciler.reconcile_tm_row
        { id := 1, userId := 1, fingerprint := "fp",
          status := RowStatus.applied, metrics := some "m", modelPath := "p" }
        { finalExists := false, tmpExists := true } true =
      ({ id := 1, userId := 1, fingerprint := "fp",
         status := RowStatus.applied, metrics := some "m", modelPath := "p" },
       { finalExists := true, tmpExists := false }) ∧
    Reconciler.reconcile_pred_row
        { id := 2, userId := 1, fingerprint := "g",
          status := RowStatus.pending, predictionResult := "" } =
      { id := 2, userId := 1, fingerprint := "g",
        status := RowStatus.failed, predictionResult := "" } := by
  have h := C5_reconciler_cases
    { id := 1, userId := 1, fingerprint := "fp", status := RowStatus.applied,
      metrics := some "m", modelPath := "p" }
    { id := 2, userId := 1, fingerprint := "g", status := RowStatus.pending,
      predictionResult := "" }
    { finalExists := false, tmpExists := true } true (by decide)
  exact ⟨h.2.1 rfl rfl rfl rfl, h.2.2.2.2.2.1 rfl⟩

/-- C6 counterexample: `applied` is not terminal.  The reconciler, finding a
training row `applied` with neither the final nor the temp artifact on disk,
marks it `failed`: an `applied → failed` transition, refuting both "once
applied it never transitions" and "the only transitions ever performed are
pending → applied and pending → failed → pending". -/
theorem C6_counterexample_applied_to_failed :
    (Reconciler.reconcile_tm_row
        { id := 1, userId := 1, fingerprint := "fp",
          status := RowStatus.applied, metrics := some "m", modelPath := "p" }
        { finalExists := false, tmpExists := false } true).1 =
      { id := 1, userId := 1, fingerprint := "fp",
        status := RowStatus.failed, metrics := some "m", modelPath := "p" } :=
  rfl

/-- C6 amended: the repository transitions are `pending → applied`
(`mark_applied`, guarded), `failed → pending` (`restart_existing_row`,
guarded), and anything `→ failed` (`mark_failed`, unconditional); `applied`
is terminal except for artifact-publish failure: the reconciler (like the
service's rename-failure path, which calls the unconditional `mark_failed`
on the just-applied row) moves an `applied` training row to `failed` only
when its final artifact is missing or its path is empty; `pending` rows are
always driven to `failed` by the reconciler. -/
theorem C6_transitions_amended (models : List TMRow) (rid : Nat) (m : String)
    (uid : Nat) (fp : String) (row : TMRow) (fs : ArtifactFS)
    (renameOk : Bool) :
    (∀ r' ∈ (TrainModelRepository.mark_applied models rid m).2, ∃ r ∈ models,
      r' = r ∨ (r.status = RowStatus.pending ∧ r'.status = RowStatus.applied)) ∧
    (∀ r' ∈ (TrainModelRepository.restart_existing_row models uid fp).2,
      ∃ r ∈ models,
      r' = r ∨ (r.status = RowStatus.failed ∧ r'.status = RowStatus.pending)) ∧
    (∀ r' ∈ (TrainModelRepository.mark_failed models rid).2, ∃ r ∈ models,
      r' = r ∨ r'.status = RowStatus.failed) ∧
    (row.status = RowStatus.applied →
      (Reconciler.reconcile_tm_row row fs renameOk).1 = row ∨
      ((Reconciler.reconcile_tm_row row fs renameOk).1.status =
          RowStatus.failed ∧
       (fs.finalExists = false ∨ row.modelPath = ""))) ∧
    (row.status = RowStatus.pending →
      (Reconciler.reconcile_tm_row row fs renameOk).1.status =
        RowStatus.failed) := by
  refine ⟨?_, ?_, ?_, ?_, ?_⟩
  · intro r' hr'
    unfold TrainModelRepository.mark_applied at hr'
    rcases hfind : models.find? (fun r => r.id == rid &&
        r.status == RowStatus.pending) with _ | w
    · rw [hfind] at hr'
      exact ⟨r', hr', Or.inl rfl⟩
    · rw [hfind] at hr'
      simp only [List.mem_map] at hr'
      obtain ⟨r, hr, hfr⟩ := hr'
      refine ⟨r, hr, ?_⟩
      by_cases hc : (r.id == rid && r.status == RowStatus.pending) = true
      · rw [if_pos hc] at hfr
        exact Or.inr ⟨by simpa using (Bool.and_eq_true_iff.mp hc).2,
                      by rw [← hfr]⟩
      · rw [if_neg hc] at hfr
        exact Or.inl hfr.symm
  · intro r' hr'
    unfold TrainModelRepository.restart_existing_row at hr'
    rcases hfind : models.find? (fun r => r.userId == uid &&
        r.fingerprint == fp && r.status == RowStatus.failed) with _ | w
    · rw [hfind] at hr'
      exact ⟨r', hr', Or.inl rfl⟩
    · rw [hfind] at hr'
      simp only [List.mem_map] at hr'
      obtain ⟨r, hr, hfr⟩ := hr'
      refine ⟨r, hr, ?_⟩
      by_cases hc : (r.userId == uid && r.fingerprint == fp &&
          r.status == RowStatus.failed) = true
      · rw [if_pos hc] at hfr
        exact Or.inr ⟨by simpa using (Bool.and_eq_true_iff.mp hc).2,
                      by rw [← hfr]⟩
      · rw [if_neg hc] at hfr
        exact Or.inl hfr.symm
  · intro r' hr'
    unfold TrainModelRepository.mark_failed at hr'
    simp only [List.mem_map] at hr'
    obtain ⟨r, hr, hfr⟩ := hr'
    refine ⟨r, hr, ?_⟩
    by_cases hc : (r.id == rid) = true
    · rw [if_pos hc] at hfr
      exact Or.inr (by rw [← hfr])
    · rw [if_neg hc] at hfr
      exact Or.inl hfr.symm
  · intro hs
    simp only [Reconciler.reconcile_tm_row, hs,
               Reconciler.finish_publish_or_fail]
    by_cases hp : row.modelPath = ""
    · rw [if_pos hp]
      exact Or.inr ⟨rfl, Or.inr hp⟩
    · rw [if_neg hp]
      by_cases hf : fs.finalExists = true
      · rw [if_pos hf]
        exact Or.inl rfl
      · rw [if_neg hf]
        have hf' : fs.finalExists = false := by
          cases h : fs.finalExists
          · rfl
          · exact absurd h hf
        by_cases ht : fs.tmpExists = true
        · rw [if_pos ht]
          by_cases hrn : renameOk = true
          · rw [if_pos hrn]
            exact Or.inl rfl
          · rw [if_neg hrn]
            exact Or.inr ⟨rfl, Or.inl hf'⟩
        · rw [if_neg ht]
          exact Or.inr ⟨rfl, Or.inl hf'⟩
  · intro hs
    simp [Reconciler.reconcile_tm_row, hs,
          Reconciler.fail_pending_and_clean_tmp]

theorem C6_transitions_amended_witness :
    (Reconciler.reconcile_tm_row
        { id := 9, userId := 2, fingerprint := "f",
          status := RowStatus.applied, metrics := none, modelPath := "q" }
        { finalExists := true, tmpExists := false } true).1 =
      { id := 9, userId := 2, fingerprint := "f",
        status := RowStatus.applied, metrics := none, modelPath := "q" } ∨
    ((Reconciler.reconcile_tm_row
        { id := 9, userId := 2, fingerprint := "f",
          status := RowStatus.applied, metrics := none, modelPath := "q" }
        { finalExists := true, tmpExists := false } true).1.status =
        RowStatus.failed ∧
     (({ finalExists := true, tmpExists := false } : ArtifactFS).finalExists =
        false ∨
      ({ id := 9, userId := 2, fingerprint := "f",
         status := RowStatus.applied, metrics := none,
         modelPath := "q" } : TMRow).modelPath = "")) :=
  (C6_transitions_amended [] 0 "" 0 ""
      { id := 9, userId := 2, fingerprint := "f",
        status := RowStatus.applied, metrics := none, modelPath := "q" }
      { finalExists := true, tmpExists := false } true).2.2.2.1 rfl

theorem insertionSort_pairLe_perm_eq (l₁ l₂ : List (String × String))
    (h : l₁.Perm l₂) :
    List.insertionSort pairLe l₁ = List.insertionSort pairLe l₂ :=
  List.eq_of_perm_of_sorted
    ((List.perm_insertionSort pairLe l₁).trans
      (h.trans (List.perm_insertionSort pairLe l₂).symm))
    (List.sorted_insertionSort pairLe l₁)
    (List.sorted_insertionSort pairLe l₂)

theorem toHex64_length (n : Nat) :
    (FingerprintHashing.toHex64 n).length = 64 := by
  simp [FingerprintHashing.toHex64, String.length]

theorem sha256HexOfString_length (s : String) :
    (FingerprintHashing.sha256HexOfString s).length = 64 :=
  toHex64_length _

/-- C9: the fingerprint generators are deterministic fixed-length hex
digests.  Training: byte-identical dataset files (even when stored at
different paths on different runs), equal normalized features, label, model
type and parameters (the params dict given in any insertion order — they are
canonicalized by the sorted stable JSON), and the same pipeline version
always yield the identical 64-character digest.  Prediction: equal model id
and feature values (any insertion order) always yield the identical
64-character digest. -/
theorem C9_fingerprint_deterministic
    (fsys1 fsys2 : String → List Nat) (path1 path2 : String)
    (feats : List String) (label mt : String)
    (params1 params2 : List (String × String)) (pv : String)
    (modelId : Nat) (fv1 fv2 : List (String × String))
    (hbytes : fsys1 path1 = fsys2 path2)
    (hparams : params1.Perm params2)
    (hfv : fv1.Perm fv2) :
    FingerprintHashing.compute_training_fingerprint fsys1 path1 feats label
        mt params1 pv =
      FingerprintHashing.compute_training_fingerprint fsys2 path2 feats label
        mt params2 pv ∧
    (FingerprintHashing.compute_training_fingerprint fsys1 path1 feats label
        mt params1 pv).length = 64 ∧
    FingerprintHashing.compute_prediction_fingerprint modelId fv1 =
      FingerprintHashing.compute_prediction_fingerprint modelId fv2 ∧
    (FingerprintHashing.compute_prediction_fingerprint modelId fv1).length =
      64 := by
  have hsort := insertionSort_pairLe_perm_eq params1 params2 hparams
  have hsortfv := insertionSort_pairLe_perm_eq fv1 fv2 hfv
  refine ⟨?_, sha256HexOfString_length _, ?_, sha256HexOfString_length _⟩
  · unfold FingerprintHashing.compute_training_fingerprint
    rw [FingerprintHashing.file_sha256, FingerprintHashing.file_sha256, hbytes]
    unfold FingerprintHashing.stable_json_training_parts
    rw [FingerprintHashing.jsonStringObj, FingerprintHashing.jsonStringObj,
        hsort]
  · unfold FingerprintHashing.compute_prediction_fingerprint
    rw [hsortfv]

theorem C9_fingerprint_deterministic_witness :
    FingerprintHashing.compute_training_fingerprint (fun _ => [1, 2, 3]) "a"
        ["x", "y"] "price" "linear" [("alpha", "1"), ("beta", "2")] "v1" =
      FingerprintHashing.compute_training_fingerprint (fun _ => [1, 2, 3]) "b"
        ["x", "y"] "price" "linear" [("beta", "2"), ("alpha", "1")] "v1" ∧
    FingerprintHashing.compute_prediction_fingerprint 5
        [("x", "1"), ("y", "2")] =
      FingerprintHashing.compute_prediction_fingerprint 5
        [("y", "2"), ("x", "1")] ∧
    (FingerprintHashing.compute_prediction_fingerprint 5
        [("x", "1"), ("y", "2")]).length = 64 := by
  have h := C9_fingerprint_deterministic (fun _ => [1, 2, 3])
    (fun _ => [1, 2, 3]) "a" "b" ["x", "y"] "price" "linear"
    [("alpha", "1"), ("beta", "2")] [("beta", "2"), ("alpha", "1")] "v1" 5
    [("x", "1"), ("y", "2")] [("y", "2"), ("x", "1")]
    rfl (by decide) (by decide)
  exact ⟨h.1, h.2.2.1, h.2.2.2⟩
